import Mathlib

/-!
Verification of the ClearClause frontend's session/analysis state
management subsystem, shallowly embedded from the JavaScript source:

* `src/frontend/src/services/api.js` — SSE frame parsing (`parseSSEData`),
  the `readAllProgress` buffer step, and `askQuestion`'s error construction;
* `src/unnamed/part_007` — the analysis context: `analysisReducer`, the
  load-effect pipeline (filter, dedupe, re-persist, TTL coercion) and
  `getActiveSession`;
* `src/frontend/src/hooks/useAnalysis.js` — the background SSE read loop;
* `src/frontend/src/pages/AnalysisPage.jsx` — the polling retry/backoff
  effect;
* `src/frontend/src/components/chat/AIAssistantPanel.jsx` — the chat
  submit state machine.

Machine integers are modelled as `Int`/`Nat` (no JS arithmetic near
overflow occurs here); JS `undefined`/`null` field states are modelled
with `Option`; functions that can throw are modelled as returning
`Option` or as explicit error-value constructors.
-/

/-! ## A model of JSON values and of `JSON.parse`

The source calls the host's `JSON.parse`. We model JSON values with
`Json` and `JSON.parse` with `jsonParse`: a recursive-descent parser for
null, booleans, integers, escape-free strings, arrays and objects,
returning `none` where `JSON.parse` throws (in particular on truncated
input and on trailing garbage).  Fractions, exponents and string escapes
are outside the model; no payload below uses them. -/

inductive Json where
  | null : Json
  | jbool (b : Bool) : Json
  | num (n : Int) : Json
  | str (s : String) : Json
  | arr (elems : List Json) : Json
  | obj (members : List (String × Json)) : Json

/-- JSON whitespace characters. -/
def jsonWs (c : Char) : Bool :=
  c = ' ' || c = '\t' || c = '\n' || c = '\r'

/-- Skip leading JSON whitespace. -/
def skipWs : List Char → List Char
  | c :: cs => if jsonWs c then skipWs cs else c :: cs
  | [] => []

/-- Parse the remainder of a double-quoted string (opening quote already
consumed); escape sequences are not modelled and make the parse fail. -/
def parseStringRest : List Char → Option (String × List Char)
  | [] => none
  | '"' :: rest => some ("", rest)
  | '\\' :: _ => none
  | c :: rest =>
    match parseStringRest rest with
    | some (s, r) => some (⟨c :: s.data⟩, r)
    | none => none

/-- Consume a maximal run of digits, accumulating their value. -/
def parseDigitsAux : List Char → Nat → Nat × List Char
  | c :: rest, acc =>
    if c.isDigit then parseDigitsAux rest (acc * 10 + (c.toNat - 48))
    else (acc, c :: rest)
  | [], acc => (acc, [])

/-- Parse a nonempty run of digits as a natural number. -/
def parseDigits : List Char → Option (Nat × List Char)
  | c :: rest =>
    if c.isDigit then some (parseDigitsAux rest (c.toNat - 48))
    else none
  | [] => none

mutual

/-- Parse one JSON value. `fuel` bounds the recursion depth. -/
def parseValue : Nat → List Char → Option (Json × List Char)
  | 0, _ => none
  | fuel + 1, cs =>
    match skipWs cs with
    | 'n' :: 'u' :: 'l' :: 'l' :: rest => some (.null, rest)
    | 't' :: 'r' :: 'u' :: 'e' :: rest => some (.jbool true, rest)
    | 'f' :: 'a' :: 'l' :: 's' :: 'e' :: rest => some (.jbool false, rest)
    | '"' :: rest =>
      match parseStringRest rest with
      | some (s, r) => some (.str s, r)
      | none => none
    | '[' :: rest => parseElems fuel rest []
    | '{' :: rest => parseMembers fuel rest []
    | '-' :: rest =>
      match parseDigits rest with
      | some (n, r) => some (.num (-(n : Int)), r)
      | none => none
    | c :: rest =>
      if c.isDigit then
        match parseDigits (c :: rest) with
        | some (n, r) => some (.num (n : Int), r)
        | none => none
      else none
    | [] => none

/-- Parse array elements up to the closing bracket. -/
def parseElems : Nat → List Char → List Json → Option (Json × List Char)
  | 0, _, _ => none
  | fuel + 1, cs, acc =>
    match skipWs cs with
    | ']' :: rest =>
      if acc.isEmpty then some (.arr [], rest) else none
    | _ =>
      match parseValue fuel cs with
      | some (v, r) =>
        match skipWs r with
        | ',' :: r2 => parseElems fuel r2 (v :: acc)
        | ']' :: r2 => some (.arr (v :: acc).reverse, r2)
        | _ => none
      | none => none

/-- Parse object members up to the closing brace. -/
def parseMembers : Nat → List Char → List (String × Json) → Option (Json × List Char)
  | 0, _, _ => none
  | fuel + 1, cs, acc =>
    match skipWs cs with
    | '}' :: rest =>
      if acc.isEmpty then some (.obj [], rest) else none
    | '"' :: rest =>
      match parseStringRest rest with
      | some (k, r) =>
        match skipWs r with
        | ':' :: r2 =>
          match parseValue fuel r2 with
          | some (v, r3) =>
            match skipWs r3 with
            | ',' :: r4 => parseMembers fuel r4 ((k, v) :: acc)
            | '}' :: r4 => some (.obj ((k, v) :: acc).reverse, r4)
            | _ => none
          | none => none
        | _ => none
      | none => none
    | _ => none

end

/-- Model of `JSON.parse`: parse one value surrounded by whitespace;
anything left over (or any failure) yields `none` where the host parser
throws. -/
def jsonParse (s : String) : Option Json :=
  match parseValue (s.length + 1) s.data with
  | some (v, rest) => if (skipWs rest).isEmpty then some v else none
  | none => none

/-! ## SSE frame parsing — `parseSSEData` and `readAllProgress`
(`src/frontend/src/services/api.js`, lines 14–55 and 94–119)

`parseSSEData` splits a text chunk on newlines, skips `:`-comment lines,
accumulates `data:` line payloads into `currentData`, emits a parsed
event at each blank line (parse failures are caught and swallowed), and
finally tries to parse any leftover `currentData` (a partial frame),
swallowing the failure when it is not yet valid JSON.  JS string
truthiness of `currentData` is nonemptiness. -/

/-- Whether the first character list is a prefix of the second. -/
def charsLeading : List Char → List Char → Bool
  | [], _ => true
  | _ :: _, [] => false
  | p :: ps, t :: ts => p = t && charsLeading ps ts

/-- Whether the second character list occurs inside the first. -/
def charsContains : List Char → List Char → Bool
  | [], pat => pat.isEmpty
  | t :: ts, pat => charsLeading pat (t :: ts) || charsContains ts pat

/-- JS `String.prototype.split('\\n')` (each newline separates pieces;
n separators yield n+1 pieces). -/
def jsSplitNlAux : List Char → List Char → List String
  | [], acc => [⟨acc.reverse⟩]
  | '\n' :: rest, acc => ⟨acc.reverse⟩ :: jsSplitNlAux rest []
  | c :: rest, acc => jsSplitNlAux rest (c :: acc)

/-- `text.split('\\n')`. -/
def jsSplitNl (s : String) : List String :=
  jsSplitNlAux s.data []

/-- The whitespace JS `String.prototype.trim` removes (the ASCII part). -/
def jsWhitespace (c : Char) : Bool :=
  c = ' ' || c = '\t' || c = '\n' || c = '\r' || c = '\x0b' || c = '\x0c'

/-- JS `String.prototype.trim`. -/
def jsTrim (s : String) : String :=
  ⟨((s.data.dropWhile jsWhitespace).reverse.dropWhile jsWhitespace).reverse⟩

/-- JS `String.prototype.startsWith`. -/
def jsStartsWith (s pre : String) : Bool :=
  charsLeading pre.data s.data

/-- The event loop of `parseSSEData`, over the chunk's lines, carrying
`currentData`. -/
def sseEvents : List String → String → List Json
  | [], currentData =>
    if currentData = "" then []
    else
      match jsonParse currentData with
      | some v => [v]
      | none => []
  | line :: rest, currentData =>
    let trimmed := jsTrim line
    if jsStartsWith trimmed ":" then sseEvents rest currentData
    else if trimmed = "" then
      if currentData = "" then sseEvents rest currentData
      else
        match jsonParse currentData with
        | some v => v :: sseEvents rest ""
        | none => sseEvents rest ""
    else if jsStartsWith trimmed "data:" then
      sseEvents rest (currentData ++ jsTrim (trimmed.drop 5))
    else sseEvents rest currentData

/-- `parseSSEData(text)` from `api.js`. -/
def parseSSEData (text : String) : List Json :=
  sseEvents (jsSplitNl text) ""

/-- Same loop as `sseEvents`, collecting the accumulated payload strings
at each frame boundary instead of parsing them: the frame payloads of a
chunk, independent of the JSON parser. -/
def ssePayloads : List String → String → List String
  | [], currentData => if currentData = "" then [] else [currentData]
  | line :: rest, currentData =>
    let trimmed := jsTrim line
    if jsStartsWith trimmed ":" then ssePayloads rest currentData
    else if trimmed = "" then
      if currentData = "" then ssePayloads rest currentData
      else currentData :: ssePayloads rest ""
    else if jsStartsWith trimmed "data:" then
      ssePayloads rest (currentData ++ jsTrim (trimmed.drop 5))
    else ssePayloads rest currentData

/-- The frame payloads of a text chunk. -/
def framePayloads (text : String) : List String :=
  ssePayloads (jsSplitNl text) ""

/-- `String.lastIndexOf('\n\n')` over the characters from position `i`:
the greatest index at which two consecutive newlines start, else `best`. -/
def lastIndexOfNNAux : List Char → Int → Int → Int
  | c1 :: c2 :: rest, i, best =>
    lastIndexOfNNAux (c2 :: rest) (i + 1) (if c1 = '\n' ∧ c2 = '\n' then i else best)
  | _, _, best => best

/-- `buffer.lastIndexOf('\n\n')`: `-1` when there is no occurrence. -/
def lastIndexOfNN (s : String) : Int :=
  lastIndexOfNNAux s.data 0 (-1)

/-- One `readAllProgress` read (`api.js` lines 94–119) on a decoded
chunk: append the chunk to the buffer, parse all events from the buffer,
then keep only what follows the last `\n\n` (when its index is `> 0`) as
the new buffer.  Returns the events of this read and the new buffer. -/
def readAllProgressStep (buffer chunk : String) : List Json × String :=
  let buf := buffer ++ chunk
  let events := parseSSEData buf
  let lastEventEnd := lastIndexOfNN buf
  let buf' := if lastEventEnd > 0 then buf.drop (lastEventEnd.toNat + 2) else buf
  (events, buf')

/-- The per-read event lists produced by feeding the chunks through
`readAllProgress`'s buffer, starting from the empty buffer. -/
def sseChunkTraceAux : String → List String → List (List Json)
  | _, [] => []
  | buffer, chunk :: rest =>
    let (events, buffer') := readAllProgressStep buffer chunk
    events :: sseChunkTraceAux buffer' rest

/-- The per-read event lists for a chunk sequence. -/
def sseChunkTrace (chunks : List String) : List (List Json) :=
  sseChunkTraceAux "" chunks

/-- All events emitted over a chunk sequence, in emission order. -/
def sseChunkEvents (chunks : List String) : List Json :=
  (sseChunkTrace chunks).flatten

/-! ## The session data model and `analysisReducer`
(`src/unnamed/part_007`, lines 27–86)

A session is a JS object; fields that may be `undefined`/`null` are
`Option`s.  `created_at` is an ISO timestamp string in the source; it is
modelled directly as the epoch-milliseconds value `new Date(s).getTime()`
yields for it (the strings stored by the app are always nonempty, so JS
truthiness of `created_at` is `Option.isSome`).  Message timestamps and
the `document_name` contents play no role in the verified properties. -/

structure Session where
  session_id : Option String
  document_name : String := ""
  status : String := ""
  progress : Int := 0
  message : Option String := none
  message_history : Option (List String) := none
  result : Option Json := none
  created_at : Option Int := none

/-- A partial-update payload as built by `updateSession(sessionId,
updates)`: `none` models a field absent from the object.  `result` is
`Option (Option Json)` because callers pass `result: progress.data || null`
— present with value `null`. -/
structure UpdatePayload where
  session_id : Option String
  status : Option String := none
  progress : Option Int := none
  message : Option String := none
  result : Option (Option Json) := none

inductive AnalysisAction where
  | addSession (payload : Session)
  | updateSession (payload : UpdatePayload)
  | removeSession (sessionId : String)
  | setActive (sessionId : String)
  | clearComplete

structure AnalysisState where
  sessions : List Session
  activeSessionId : Option String

/-- JS truthiness of a possibly-absent string: present and nonempty. -/
def truthyStr : Option String → Prop
  | none => False
  | some s => s ≠ ""

instance : DecidablePred truthyStr := fun m =>
  match m with
  | none => isFalse id
  | some s => inferInstanceAs (Decidable (s ≠ ""))

/-- `payload.message ? [payload.message] : []` — the `message_history`
a freshly added session gets (`ADD_SESSION`, line 37). -/
def initialHistory (message : Option String) : List String :=
  match message with
  | some m => if m ≠ "" then [m] else []
  | none => []

/-- The `UPDATE_SESSION` body for the matching session (lines 48–56):
spread-merge the payload, then append `payload.message` to
`message_history` when it is truthy and differs from the current
`message` (`session.message_history || (session.message ? [session.message] : [])`). -/
def applyUpdate (session : Session) (p : UpdatePayload) : Session :=
  let updated : Session :=
    { session with
      session_id := p.session_id
      status := p.status.getD session.status
      progress := p.progress.getD session.progress
      message := match p.message with
        | some m => some m
        | none => session.message
      result := p.result.getD session.result }
  match p.message with
  | some m =>
    if m ≠ "" ∧ session.message ≠ some m then
      let history := session.message_history.getD (initialHistory session.message)
      { updated with message_history := some (history ++ [m]) }
    else updated
  | none => updated

/-- `analysisReducer` (`src/unnamed/part_007`, lines 27–86). -/
def analysisReducer (state : AnalysisState) (action : AnalysisAction) : AnalysisState :=
  match action with
  | .addSession payload =>
    if ∃ s ∈ state.sessions, s.session_id = payload.session_id then state
    else
      { sessions := state.sessions ++
          [{ payload with message_history := some (initialHistory payload.message) }]
        activeSessionId := payload.session_id }
  | .updateSession payload =>
    { state with
      sessions := state.sessions.map fun session =>
        if session.session_id ≠ payload.session_id then session
        else applyUpdate session payload }
  | .removeSession sid =>
    { sessions := state.sessions.filter fun s => s.session_id ≠ some sid
      activeSessionId :=
        if state.activeSessionId = some sid then none else state.activeSessionId }
  | .setActive sid => { state with activeSessionId := some sid }
  | .clearComplete =>
    { state with
      sessions := state.sessions.filter fun s =>
        s.status ≠ "complete" ∧ s.status ≠ "error" }

/-- `getActiveSession` (`src/unnamed/part_007`, lines 172–174). -/
def getActiveSession (state : AnalysisState) : Option Session :=
  state.sessions.find? fun s => s.session_id = state.activeSessionId

/-! ## Store hydration — the load effect
(`src/unnamed/part_007`, lines 95–132)

The persisted value is a JSON array; an element can be a non-object or
have a missing/null id, so a stored entry is `Option Session` (`none`
models a falsy element).  The steps of the effect, in source order:
filter out entries with falsy id, deduplicate through a JS `Map` keyed
by `session_id` (`Map.set` keeps the first-insertion position and the
last-written value), re-write storage when the lengths differ, then
TTL-coerce stale non-terminal sessions. -/

/-- `sessions.filter(s => s && s.session_id)` (line 101). -/
def validSessions (stored : List (Option Session)) : List Session :=
  stored.filterMap fun entry =>
    entry.bind fun s => if truthyStr s.session_id then some s else none

/-- `Map.set` on the map's entry list: replace the entry with this key in
place, else append (JS `Map` keeps first-insertion order, last-written
value). -/
def mapSet : List Session → Session → List Session
  | [], s => [s]
  | t :: m, s =>
    if t.session_id = s.session_id then s :: m else t :: mapSet m s

/-- `validSessions.forEach(s => uniqueSessionsMap.set(s.session_id, s));
Array.from(uniqueSessionsMap.values())` (lines 104–106). -/
def dedupeById (sessions : List Session) : List Session :=
  sessions.foldl mapSet []

/-- `uniqueSessions` of the load effect. -/
def loadCleaned (stored : List (Option Session)) : List Session :=
  dedupeById (validSessions stored)

/-- `uniqueSessions.length !== sessions.length` — whether the effect
re-writes the cleaned list to storage (lines 108–111). -/
def repersistNeeded (stored : List (Option Session)) : Bool :=
  (loadCleaned stored).length ≠ stored.length

/-- `SESSION_TTL_MS = 30 * 60 * 1000` (line 114). -/
def sessionTTLms : Int := 30 * 60 * 1000

/-- The auto-expiry map of the load effect (lines 116–125): a session
with a truthy `created_at`, a status outside
`['complete', 'error', 'expired']` and an age above the TTL becomes an
`error` with the expiry message; anything else is untouched. -/
def ttlCoerce (now : Int) (s : Session) : Session :=
  match s.created_at with
  | some c =>
    if s.status ∉ ["complete", "error", "expired"] ∧ now - c > sessionTTLms then
      { s with status := "error", message := some "Session expired — please upload again." }
    else s
  | none => s

/-- The session list the load effect dispatches (`cleaned`, line 116). -/
def loadSessions (now : Int) (stored : List (Option Session)) : List Session :=
  (loadCleaned stored).map (ttlCoerce now)

/-- Specification-side description of map-insertion key order: keep the
first occurrence of each element, in order (the spec's "preserving
map-insertion order"). -/
def keepFirsts {α : Type _} [DecidableEq α] (l : List α) : List α :=
  l.foldl (fun acc i => if i ∈ acc then acc else acc ++ [i]) []

/-! ## The background SSE read loop of `startAnalysis`
(`src/frontend/src/hooks/useAnalysis.js`, lines 59–90)

The loop repeatedly awaits `stream.readAllProgress()`; a read either
returns a list of events (`ReadResult.ok`) or throws
(`ReadResult.fail`).  `.ok []` is stream exhaustion (`done` was true).
The dispatched `updateSession` payloads are recorded in order. -/

structure ProgressEvent where
  session_id : Option String := none
  stage : Option String := none
  progress : Option Int := none
  message : Option String := none
  data : Option Json := none
  error : Option String := none

/-- `updateSession(sessionId, {status: progress.stage, progress:
progress.progress, message: progress.message, result: progress.data ||
null})` (lines 74–79); event `data` payloads are objects, hence truthy,
so `progress.data || null` is the `data` field itself. -/
def updateOfEvent (sessionId : String) (e : ProgressEvent) : UpdatePayload :=
  { session_id := some sessionId
    status := e.stage
    progress := e.progress
    message := e.message
    result := some e.data }

/-- `updateSession(sessionId, { status: 'error', message: msg })`. -/
def errorUpdateOf (sessionId : String) (msg : String) : UpdatePayload :=
  { session_id := some sessionId, status := some "error", message := some msg }

/-- The inner `for` over one read's events (lines 68–84): an event with
a truthy `error` dispatches an error update and ends the loop; otherwise
the event's update is dispatched, and a `complete`/`error` stage ends
the loop.  Returns the dispatches of this read and the `done` flag. -/
def processEvents (sessionId : String) : List ProgressEvent → List UpdatePayload × Bool
  | [] => ([], false)
  | e :: es =>
    if truthyStr e.error then ([errorUpdateOf sessionId (e.error.getD "")], true)
    else
      let u := updateOfEvent sessionId e
      if e.stage = some "complete" ∨ e.stage = some "error" then ([u], true)
      else
        let (us, d) := processEvents sessionId es
        (u :: us, d)

/-- One read of the loop: a list of events, or a thrown read error. -/
inductive ReadResult where
  | ok (events : List ProgressEvent)
  | fail

/-- The `while (!done)` loop with its surrounding `try/catch` (lines
61–89): a throwing read dispatches the `'Connection lost. Retrying...'`
error update; a read of zero events breaks out of the loop with no
dispatch; otherwise the read's events are processed and the loop
continues unless `done`. -/
def sseLoop (sessionId : String) : List ReadResult → List UpdatePayload
  | [] => []
  | .fail :: _ => [errorUpdateOf sessionId "Connection lost. Retrying..."]
  | .ok [] :: _ => []
  | .ok evs :: rest =>
    let (us, done) := processEvents sessionId evs
    if done then us else us ++ sseLoop sessionId rest

/-! ## The polling effect of `AnalysisPage`
(`src/frontend/src/pages/AnalysisPage.jsx`, lines 141–182)

Each poll outcome is `true` (the `pollStatus` call resolved — it
dispatched one `updateSession` with the server snapshot) or `false` (it
threw).  After a success the next poll is scheduled in 2000 ms and
`consecutiveErrors` resets to 0; after a failure `consecutiveErrors`
increments, polling stops for good once it reaches 5, and otherwise the
next poll is scheduled after `min(4000 * 2**(consecutiveErrors-1),
32000)` ms. -/

/-- `Math.min(4000 * Math.pow(2, consecutiveErrors - 1), 32000)`. -/
def pollBackoff (consecutiveErrors : Nat) : Nat :=
  min (4000 * 2 ^ (consecutiveErrors - 1)) 32000

/-- The delays the polling effect schedules after each processed
outcome, from a given `consecutiveErrors` count; processing ends (and
the remaining outcomes are never polled) once 5 consecutive failures
are reached. -/
def pollDelays (consecutiveErrors : Nat) : List Bool → List Nat
  | [] => []
  | true :: rest => 2000 :: pollDelays 0 rest
  | false :: rest =>
    let n := consecutiveErrors + 1
    if n ≥ 5 then [] else pollBackoff n :: pollDelays n rest

/-- The `updateSession` dispatches of the polling effect: a successful
poll dispatches the server-snapshot update `u`; a failed poll dispatches
nothing, and the stop condition ends processing. -/
def pollDispatches (u : UpdatePayload) (consecutiveErrors : Nat) :
    List Bool → List UpdatePayload
  | [] => []
  | true :: rest => u :: pollDispatches u 0 rest
  | false :: rest =>
    let n := consecutiveErrors + 1
    if n ≥ 5 then [] else pollDispatches u n rest

/-! ## The chat submit state machine of `AIAssistantPanel`
(`src/frontend/src/components/chat/AIAssistantPanel.jsx`, lines 191–279)

The component state is the message list, the input box, the
`isSubmitting` flag and `chatAbortRef` (the `AbortController` of the
most recently issued request, by request id).  `submitUserMessage`'s
synchronous prefix (guard, user message, placeholder, abort of the
previous controller) is `submitStartStep`; the resolution of the awaited
`askQuestion` is `submitFinishOk` / `submitFinishErr`.  JS message ids
`Date.now().toString()` / `(Date.now()+1).toString()` are derived from a
supplied clock value. -/

structure ChatMessage where
  id : String
  role : String
  content : String
  sources : Option (List String) := none
  isError : Bool := false
  isComplete : Option Bool := none

structure ChatState where
  messages : List ChatMessage
  input : String
  isSubmitting : Bool
  chatAbortRef : Option Nat

/-- What `submitUserMessage`'s synchronous prefix did: the state after
it ran, whether a request was started (with which id and placeholder
id), and whether it aborted a previously stored controller. -/
structure SubmitStart where
  state : ChatState
  started : Bool
  abortedPrevious : Bool
  requestId : Option Nat
  placeholderId : Option String

/-- The user message appended on submit (lines 196–203). -/
def userMessage (id text : String) : ChatMessage :=
  { id := id, role := "user", content := text }

/-- The empty placeholder assistant message (lines 228–235). -/
def placeholderMessage (id : String) : ChatMessage :=
  { id := id, role := "assistant", content := "", sources := none, isComplete := some false }

/-- `submitUserMessage(textContent)` up to the `await askQuestion`
(lines 191–237): a no-op while `isSubmitting`; otherwise append the user
message, clear the input, set `isSubmitting`, abort any previous
controller, store the new one, and append the placeholder. -/
def submitStartStep (st : ChatState) (textContent : String) (now requestId : Nat) :
    SubmitStart :=
  if st.isSubmitting then
    { state := st, started := false, abortedPrevious := false
      requestId := none, placeholderId := none }
  else
    let assistantId := toString (now + 1)
    { state :=
        { messages := st.messages ++
            [userMessage (toString now) textContent, placeholderMessage assistantId]
          input := ""
          isSubmitting := true
          chatAbortRef := some requestId }
      started := true
      abortedPrevious := st.chatAbortRef.isSome
      requestId := some requestId
      placeholderId := some assistantId }

/-- `handleSubmit` (lines 275–279): a no-op when the trimmed input is
empty or a submission is in flight; otherwise submit the trimmed input. -/
def handleSubmit (st : ChatState) (now requestId : Nat) : SubmitStart :=
  if jsTrim st.input = "" ∨ st.isSubmitting then
    { state := st, started := false, abortedPrevious := false
      requestId := none, placeholderId := none }
  else submitStartStep st (jsTrim st.input) now requestId

/-- Sealing the placeholder on success (lines 248–252). -/
def submitFinishOk (st : ChatState) (assistantId answer : String)
    (sources : List String) : ChatState :=
  { st with
    messages := st.messages.map fun m =>
      if m.id = assistantId then
        { m with content := answer, sources := some sources, isComplete := some true }
      else m
    isSubmitting := false }

/-- JS `String.prototype.includes`. -/
def jsIncludes (s sub : String) : Bool :=
  charsContains s.data sub.data

/-- The catch branch's message text (lines 258–260): the expired-session
text exactly when the error message contains `'422'`, else the generic
text. -/
def chatErrorContent (errMessage : String) : String :=
  if jsIncludes errMessage "422" then
    "Unable to process your request. The session may have expired. Please upload your document again to start a new analysis."
  else "I apologize, but I encountered an error. Please try again."

/-- The catch branch (lines 254–272): cancellation (`AbortError`) adds
nothing; any other failure appends a sealed error message whose content
is `chatErrorContent`; `finally` clears `isSubmitting`. -/
def submitFinishErr (st : ChatState) (now : Nat) (errName errMessage : String) :
    ChatState :=
  if errName = "AbortError" then { st with isSubmitting := false }
  else
    { st with
      messages := st.messages ++
        [{ id := toString (now + 1), role := "assistant"
           content := chatErrorContent errMessage
           isError := true, isComplete := some true }]
      isSubmitting := false }

/-! ## `askQuestion`'s failure values
(`src/frontend/src/services/api.js`, lines 207–243)

On a non-ok response, `askQuestion` throws an `Error` whose `code`
property is `'rate_limited'` for HTTP 429 and `'api_error'` otherwise,
with the message taken from the response body's `detail` when present. -/

structure ApiError where
  code : String
  message : String
deriving DecidableEq

/-- The error `askQuestion` throws for a non-ok HTTP response of the
given status, where `detail` is the parsed body's `detail` field when
available (lines 223–243). -/
def askQuestionError (status : Nat) (detail : Option String) : ApiError :=
  if status = 429 then
    { code := "rate_limited"
      message := "You are asking questions too quickly. Please wait a moment before trying again." }
  else
    { code := "api_error", message := detail.getD "Chat request failed" }

/-! ## Derived definitions and concrete fixtures used in the statements -/

/-- Lookup by id, as `sessions.find(s => s.session_id === id)` does. -/
def findById (sessions : List Session) (i : Option String) : Option Session :=
  sessions.find? fun s => s.session_id = i

/-- An event that is neither an error payload nor a terminal stage. -/
def nonTerminalEvent (e : ProgressEvent) : Prop :=
  ¬ truthyStr e.error ∧ e.stage ≠ some "complete" ∧ e.stage ≠ some "error"

/-- A stored session with a legacy `'expired'` status, stale by any
measure (created at epoch 0). -/
def expiredStatusSession : Session :=
  { session_id := some "s1", document_name := "lease.pdf"
    status := "expired", created_at := some 0 }

/-- Two stored sessions sharing one id (`'dup'`). -/
def dupSessionA : Session :=
  { session_id := some "dup", document_name := "a.pdf", status := "analyzing" }

/-- The later write under the id `'dup'`. -/
def dupSessionB : Session :=
  { session_id := some "dup", document_name := "b.pdf", status := "complete" }

/-- A mid-pipeline progress event. -/
def extractingEvent : ProgressEvent :=
  { stage := some "extracting", progress := some 40
    message := some "Extracting text with Apryse OCR..." }

/-- A chat panel whose Q1 submission is still in flight (placeholder
open, `isSubmitting` set, controller 1 stored). -/
def chatStateQ1 : ChatState :=
  { messages := [userMessage "100" "Q1", placeholderMessage "101"]
    input := "", isSubmitting := true, chatAbortRef := some 1 }

/-- An idle chat panel holding `'Q2'` in the input box, with a settled
previous controller still stored. -/
def idleChatState : ChatState :=
  { messages := [], input := "Q2", isSubmitting := false, chatAbortRef := some 1 }

/-! ## Theorems -/

/-- `sseEvents` is `ssePayloads` followed by the (failure-swallowing)
parse of each payload: frame boundaries do not depend on parse results,
and a frame whose payload fails to parse contributes nothing. -/
theorem sseEvents_eq_payloads (lines : List String) (currentData : String) :
    sseEvents lines currentData
      = (ssePayloads lines currentData).filterMap jsonParse := by
  induction lines generalizing currentData with
  | nil =>
    by_cases h : currentData = ""
    · simp [sseEvents, ssePayloads, h]
    · simp only [sseEvents, ssePayloads, if_neg h]
      cases hj : jsonParse currentData <;> simp [List.filterMap, hj]
  | cons line rest ih =>
    simp only [sseEvents, ssePayloads]
    by_cases h1 : jsStartsWith (jsTrim line) ":"
    · simp [h1, ih]
    · by_cases h2 : jsTrim line = ""
      · by_cases h3 : currentData = ""
        · simp [h1, h2, h3, ih]
        · simp only [if_neg h1, if_pos h2, if_neg h3]
          cases hj : jsonParse currentData <;>
            simp [List.filterMap, hj, ih]
      · by_cases h4 : jsStartsWith (jsTrim line) "data:"
        · simp [h1, h2, h4, ih]
        · simp [h1, h2, h4, ih]

/-- C10: the SSE frame parser is total and swallows malformed payloads.
`parseSSEData` is, for every input string, exactly the per-frame parse
of the chunk's frame payloads, dropping (only) the frames whose payload
is not valid JSON — so it returns a (possibly empty) event list for
every input, and one corrupt frame never prevents parsing of the frames
around it (illustrated by the corrupt frames surrounding the good one in
the second conjunct; throwing is modelled by `jsonParse = none`, and
`List.filterMap` swallows exactly those). -/
theorem parseSSEData_total_swallows (text : String) :
    parseSSEData text = (framePayloads text).filterMap jsonParse ∧
    parseSSEData "data: \x7bbad\n\ndata: 1\n\ndata: \x7balso-bad\n\n"
      = [Json.num 1] :=
  ⟨sseEvents_eq_payloads _ _, by rfl⟩

/-- C4 counterexample: a chunk that ends mid-frame (no blank-line
terminator was seen for the `data: 2` frame) does NOT return zero events
for that frame: because the truncated payload `2` is already valid JSON,
the trailing-data branch of `parseSSEData` emits it in the first read,
and `readAllProgress` keeps the unterminated frame in its buffer, so the
same frame is emitted AGAIN when the terminator arrives in the second
read — the event is parsed twice, not exactly once. -/
theorem sse_midframe_duplicate_cex :
    sseChunkTrace ["data: 1\n\ndata: 2", "\n\n"]
      = [[Json.num 1, Json.num 2], [Json.num 2]] ∧
    sseChunkEvents ["data: 1\n\ndata: 2", "\n\n"]
      = [Json.num 1, Json.num 2, Json.num 2] :=
  ⟨by rfl, by rfl⟩

/-- C4 (amended): in one chunk, every complete frame is emitted exactly
once, in arrival order; comment lines are never data; a chunk that ends
mid-frame with a payload that is not yet valid JSON yields zero events
for that frame, which completes on the next read without corrupting the
following frame; but a chunk boundary falling after a complete JSON
payload and before its blank-line terminator makes the parser emit that
event early and once more after the terminator arrives. -/
theorem sse_chunk_parsing :
    parseSSEData "data: 1\n\ndata: 2\n\ndata: 3\n\n"
      = [Json.num 1, Json.num 2, Json.num 3] ∧
    parseSSEData ": keep-alive\n\ndata: 1\n\n: ping\n\n" = [Json.num 1] ∧
    sseChunkTrace ["data: \"hel", "lo\"\n\ndata: 2\n\n"]
      = [[], [Json.str "hello", Json.num 2]] ∧
    sseChunkTrace ["data: 1\n\ndata: 2", "\n\n"]
      = [[Json.num 1, Json.num 2], [Json.num 2]] :=
  ⟨by rfl, by rfl, by rfl, by rfl⟩

/-- C1: `ADD_SESSION` is idempotent on session identity.  When some
session with the payload's `session_id` is already in the collection,
the reducer returns the state unchanged (no entry appended, active
pointer untouched); and dispatching the same `AddSession` twice always
equals dispatching it once. -/
theorem addSession_idempotent (state : AnalysisState) (payload : Session) :
    ((∃ s ∈ state.sessions, s.session_id = payload.session_id) →
      analysisReducer state (.addSession payload) = state) ∧
    analysisReducer (analysisReducer state (.addSession payload)) (.addSession payload)
      = analysisReducer state (.addSession payload) := by
  constructor
  · intro h
    simp only [analysisReducer, if_pos h]
  · by_cases h : ∃ s ∈ state.sessions, s.session_id = payload.session_id
    · simp only [analysisReducer, if_pos h]
    · simp only [analysisReducer, if_neg h]
      rw [if_pos]
      refine ⟨{ payload with message_history := some (initialHistory payload.message) }, ?_, rfl⟩
      simp

/-- C1 witness: a state already holding a session with id `'abc'`
absorbs a second `AddSession` with that id. -/
theorem addSession_idempotent_witness :
    analysisReducer
        { sessions := [{ session_id := some "abc" }], activeSessionId := some "abc" }
        (.addSession { session_id := some "abc", document_name := "x.pdf" })
      = { sessions := [{ session_id := some "abc" }], activeSessionId := some "abc" } :=
  (addSession_idempotent
      { sessions := [{ session_id := some "abc" }], activeSessionId := some "abc" }
      { session_id := some "abc", document_name := "x.pdf" }).1
    ⟨{ session_id := some "abc" }, by simp, rfl⟩

/-- C3 counterexample: a loaded session whose status is the legacy
string `'expired'` is not terminal in the claim's sense (neither
`complete` nor `error`) and is 31 minutes old, yet the load-time TTL
coercion leaves it untouched — its status does not become `'error'`:
the source exempts `'expired'` alongside the terminal statuses. -/
theorem ttlCoerce_expired_status_cex :
    expiredStatusSession.status ≠ "complete" ∧
    expiredStatusSession.status ≠ "error" ∧
    (1860000 : Int) - 0 > sessionTTLms ∧
    ttlCoerce 1860000 expiredStatusSession = expiredStatusSession ∧
    (ttlCoerce 1860000 expiredStatusSession).status ≠ "error" := by
  refine ⟨by decide, by decide, by decide, by rfl, by decide⟩

/-- C3 (amended): at load, every session whose status is outside
`['complete', 'error', 'expired']` (the code also exempts a legacy
`'expired'` status) and whose age from `created_at` exceeds the
30-minute TTL is coerced to status `'error'` with the expiry message;
a session with a status in that list, or one not older than the TTL,
or one without a `created_at`, is left untouched; and the coercion is
what every loaded session goes through. -/
theorem ttlCoerce_spec (now : Int) (s : Session) :
    (∀ c, s.created_at = some c →
      s.status ∉ (["complete", "error", "expired"] : List String) →
      now - c > sessionTTLms →
      ttlCoerce now s
        = { s with status := "error"
                   message := some "Session expired — please upload again." }) ∧
    (s.status ∈ (["complete", "error", "expired"] : List String) → ttlCoerce now s = s) ∧
    (∀ c, s.created_at = some c → now - c ≤ sessionTTLms → ttlCoerce now s = s) ∧
    (s.created_at = none → ttlCoerce now s = s) ∧
    (∀ stored, s ∈ loadCleaned stored → ttlCoerce now s ∈ loadSessions now stored) := by
  refine ⟨?_, ?_, ?_, ?_, ?_⟩
  · intro c hc hst hage
    simp only [ttlCoerce, hc]
    rw [if_pos ⟨hst, hage⟩]
  · intro hst
    cases hc : s.created_at with
    | none => simp only [ttlCoerce, hc]
    | some c =>
      simp only [ttlCoerce, hc]
      rw [if_neg]
      intro hcon
      exact hcon.1 hst
  · intro c hc hage
    simp only [ttlCoerce, hc]
    rw [if_neg]
    intro hcon
    exact absurd hcon.2 (not_lt.mpr hage)
  · intro hc
    simp only [ttlCoerce, hc]
  · intro stored hs
    exact List.mem_map_of_mem _ hs

/-- C3 witness: the coercion fires on a 31-minute-old `'analyzing'`
session and leaves a 5-minute-old one untouched. -/
theorem ttlCoerce_spec_witness :
    ttlCoerce 1860000
        { session_id := some "a", status := "analyzing", created_at := some 0 }
      = { session_id := some "a", status := "error"
          message := some "Session expired — please upload again."
          created_at := some 0 } ∧
    ttlCoerce 300000
        { session_id := some "a", status := "analyzing", created_at := some 0 }
      = { session_id := some "a", status := "analyzing", created_at := some 0 } := by
  constructor
  · exact (ttlCoerce_spec 1860000
        { session_id := some "a", status := "analyzing", created_at := some 0 }).1
      0 rfl (by decide) (by decide)
  · exact (ttlCoerce_spec 300000
        { session_id := some "a", status := "analyzing", created_at := some 0 }).2.2.1
      0 rfl (by decide)

/-- C9: `CLEAR_COMPLETE` keeps `activeSessionId` unchanged and removes
exactly the sessions whose status is `'complete'` or `'error'` (order of
the rest preserved by `filter`); hence, when the active session is
terminal (ids unique, as the store maintains), `getActiveSession`
afterwards finds nothing; by contrast `REMOVE_SESSION` of the active id
resets the active pointer to `null`. -/
theorem clearComplete_frame (state : AnalysisState) :
    (analysisReducer state .clearComplete).activeSessionId = state.activeSessionId ∧
    (∀ s, s ∈ (analysisReducer state .clearComplete).sessions ↔
      s ∈ state.sessions ∧ s.status ≠ "complete" ∧ s.status ≠ "error") ∧
    (∀ s, getActiveSession state = some s →
      (s.status = "complete" ∨ s.status = "error") →
      (state.sessions.map Session.session_id).Nodup →
      getActiveSession (analysisReducer state .clearComplete) = none) ∧
    (∀ sid, (analysisReducer state (.removeSession sid)).activeSessionId
      = if state.activeSessionId = some sid then none else state.activeSessionId) := by
  refine ⟨rfl, ?_, ?_, fun _ => rfl⟩
  · intro s
    simp [analysisReducer, List.mem_filter]
  · intro s hfind hterm hnodup
    have hmem : s ∈ state.sessions := List.mem_of_find?_eq_some hfind
    have hid : s.session_id = state.activeSessionId := by
      have := List.find?_some hfind
      simpa using this
    unfold getActiveSession
    rw [List.find?_eq_none]
    intro t ht
    have ht' : t ∈ state.sessions ∧ t.status ≠ "complete" ∧ t.status ≠ "error" := by
      simpa [analysisReducer, List.mem_filter] using ht
    simp only [decide_eq_true_eq]
    intro htid
    replace htid : t.session_id = state.activeSessionId := htid
    have hts : t = s :=
      List.inj_on_of_nodup_map hnodup ht'.1 hmem (htid.trans hid.symm)
    rcases hterm with h | h
    · exact ht'.2.1 (hts ▸ h)
    · exact ht'.2.2 (hts ▸ h)

/-- C9 witness: clearing with a terminal active session (`'done'`,
status `'complete'`) leaves the pointer at `'done'` while the session is
gone. -/
theorem clearComplete_frame_witness :
    getActiveSession (analysisReducer
        { sessions := [{ session_id := some "done", status := "complete" }]
          activeSessionId := some "done" } .clearComplete) = none :=
  (clearComplete_frame
      { sessions := [{ session_id := some "done", status := "complete" }]
        activeSessionId := some "done" }).2.2.1
    { session_id := some "done", status := "complete" }
    (by rfl) (Or.inl rfl) (by simp)

/-- An unbroken run of failed polls never dispatches an update, from any
consecutive-failure count. -/
theorem pollDispatches_all_failures (u : UpdatePayload) :
    ∀ (m n : Nat), pollDispatches u n (List.replicate m false) = [] := by
  intro m
  induction m with
  | zero => intro n; rfl
  | succ m ih =>
    intro n
    simp only [List.replicate, pollDispatches]
    split
    · rfl
    · exact ih (n + 1)

/-- C6: the polling effect's retry policy.  Five consecutive failures
from a fresh counter schedule exactly the backoff delays 4 s, 8 s, 16 s
and 32 s and then stop polling for good (whatever outcomes would
follow); each caught failure under the cutoff schedules
`min(4000·2^(n-1), 32000)` ms, which doubles from 4000 while `n ≤ 4` and
never exceeds 32000; a successful poll schedules the regular 2000 ms
poll and resets the failure count to 0; once the count reaches 5 nothing
more is scheduled; and failed polls dispatch no session update at all —
an all-failure run leaves the session exactly as it was. -/
theorem polling_backoff_spec (n : Nat) (rest : List Bool) (u : UpdatePayload) (m : Nat) :
    pollDelays 0 (List.replicate 5 false ++ rest) = [4000, 8000, 16000, 32000] ∧
    (n ≤ 3 → pollDelays n (false :: rest) = 4000 * 2 ^ n :: pollDelays (n + 1) rest) ∧
    pollBackoff (n + 1) ≤ 32000 ∧
    pollDelays n (true :: rest) = 2000 :: pollDelays 0 rest ∧
    (4 ≤ n → pollDelays n (false :: rest) = []) ∧
    pollDispatches u n (List.replicate m false) = [] := by
  refine ⟨?_, ?_, ?_, rfl, ?_, pollDispatches_all_failures u m n⟩
  · simp only [List.replicate, List.cons_append, List.nil_append, pollDelays, pollBackoff]
    norm_num
  · intro h
    have h5 : ¬ n + 1 ≥ 5 := by omega
    simp only [pollDelays, if_neg h5, pollBackoff, Nat.add_sub_cancel]
    interval_cases n <;> norm_num
  · exact min_le_right _ _
  · intro h
    have h5 : n + 1 ≥ 5 := by omega
    simp only [pollDelays, if_pos h5]

/-- C5 counterexample: the progress stream delivers one non-terminal
`extracting` event and then ends cleanly (a read returns zero events).
No terminal stage was observed, yet the background loop's dispatches
contain no `status: 'error'` update at all — the `events.length === 0`
branch just breaks, and the `'Connection lost. Retrying...'` update is
only dispatched from the `catch` of a throwing read. -/
theorem sseLoop_clean_exhaustion_cex :
    sseLoop "s1" [.ok [extractingEvent], .ok []]
      = [updateOfEvent "s1" extractingEvent] ∧
    (updateOfEvent "s1" extractingEvent).status = some "extracting" ∧
    ∀ u ∈ sseLoop "s1" [.ok [extractingEvent], .ok []], u.status ≠ some "error" := by
  refine ⟨by rfl, rfl, ?_⟩
  intro u hu
  have : sseLoop "s1" [.ok [extractingEvent], .ok []]
      = [updateOfEvent "s1" extractingEvent] := by rfl
  rw [this] at hu
  simp only [List.mem_singleton] at hu
  subst hu
  intro hcon
  simp [updateOfEvent, extractingEvent] at hcon

/-- Non-terminal, non-error events are processed into their updates with
the loop not yet done. -/
theorem processEvents_nonTerminal (sessionId : String) (events : List ProgressEvent)
    (h : ∀ e ∈ events, nonTerminalEvent e) :
    processEvents sessionId events = (events.map (updateOfEvent sessionId), false) := by
  induction events with
  | nil => rfl
  | cons e es ih =>
    have he := h e (List.mem_cons_self e es)
    have hes : ∀ e' ∈ es, nonTerminalEvent e' := fun e' h' => h e' (List.mem_cons_of_mem e h')
    simp only [processEvents, if_neg he.1, ih hes]
    rw [if_neg]
    · rfl
    · rintro (hc | hc)
      · exact he.2.1 hc
      · exact he.2.2 hc

/-- C5 (amended): while the delivered events are all non-terminal and
each read is nonempty, the loop dispatches exactly the per-event updates
in order; if the stream then ends cleanly (a read of zero events) before
any terminal stage, the loop exits silently — no `'error'`/`'connection
lost'` update is dispatched and the session keeps its last non-terminal
state; the `'Connection lost. Retrying...'` error update is dispatched
exactly when a read throws. -/
theorem sseLoop_spec (sessionId : String) (evss : List (List ProgressEvent))
    (hne : ∀ evs ∈ evss, evs ≠ [])
    (hnt : ∀ evs ∈ evss, ∀ e ∈ evs, nonTerminalEvent e) :
    sseLoop sessionId (evss.map .ok ++ [.ok []])
      = evss.flatten.map (updateOfEvent sessionId) ∧
    sseLoop sessionId (evss.map .ok ++ [.fail])
      = evss.flatten.map (updateOfEvent sessionId)
        ++ [errorUpdateOf sessionId "Connection lost. Retrying..."] := by
  induction evss with
  | nil => exact ⟨rfl, rfl⟩
  | cons evs evss ih =>
    have hne1 : evs ≠ [] := hne evs (List.mem_cons_self evs evss)
    have hnt1 : ∀ e ∈ evs, nonTerminalEvent e :=
      hnt evs (List.mem_cons_self evs evss)
    have ih' := ih (fun e h => hne e (List.mem_cons_of_mem evs h))
      (fun e h => hnt e (List.mem_cons_of_mem evs h))
    obtain ⟨e, es, rfl⟩ := List.exists_cons_of_ne_nil hne1
    constructor
    · simp only [List.map_cons, List.cons_append, sseLoop,
        processEvents_nonTerminal sessionId _ hnt1, if_neg (Bool.false_ne_true ∘ id)]
      rw [List.append_eq, ih'.1]
      simp
    · simp only [List.map_cons, List.cons_append, sseLoop,
        processEvents_nonTerminal sessionId _ hnt1, if_neg (Bool.false_ne_true ∘ id)]
      rw [List.append_eq, ih'.2]
      simp

/-- C5 witness: one nonempty non-terminal read, then a clean end or a
thrown read, at concrete inputs. -/
theorem sseLoop_spec_witness :
    sseLoop "s2" (([[extractingEvent]] : List (List ProgressEvent)).map .ok ++ [.ok []])
      = ([[extractingEvent]] : List (List ProgressEvent)).flatten.map (updateOfEvent "s2") ∧
    sseLoop "s2" (([[extractingEvent]] : List (List ProgressEvent)).map .ok ++ [.fail])
      = ([[extractingEvent]] : List (List ProgressEvent)).flatten.map (updateOfEvent "s2")
        ++ [errorUpdateOf "s2" "Connection lost. Retrying..."] :=
  sseLoop_spec "s2" [[extractingEvent]]
    (by simp)
    (by
      intro evs hevs e he
      simp only [List.mem_singleton] at hevs
      subst hevs
      simp only [List.mem_singleton] at he
      subst he
      refine ⟨?_, by simp [extractingEvent], by simp [extractingEvent]⟩
      simp [extractingEvent, truthyStr])

/-- C7 counterexample: with Q1's submission still in flight
(`chatStateQ1`), submitting `'Q2'` is a pure no-op: the state (messages,
placeholder, stored controller) is unchanged, no request starts, and —
contrary to the claim — the in-flight Q1 request is NOT aborted and no
assistant message answering Q2 ever appears; the abort-previous logic is
unreachable while `isSubmitting` is set. -/
theorem chatSubmit_inflight_cex :
    (submitStartStep chatStateQ1 "Q2" 200 2).state = chatStateQ1 ∧
    (submitStartStep chatStateQ1 "Q2" 200 2).abortedPrevious = false ∧
    (submitStartStep chatStateQ1 "Q2" 200 2).started = false ∧
    chatStateQ1.isSubmitting = true ∧
    chatStateQ1.chatAbortRef = some 1 :=
  ⟨rfl, rfl, rfl, rfl, rfl⟩

/-- C7 (amended): chat turns are serialized by the `isSubmitting` guard,
not by cancellation.  `submit` is a no-op while a submission is in
flight (so a second submit during Q1 neither cancels Q1 nor produces any
message) and when the trimmed input is blank; from an idle state a
submit starts exactly one request, appending the user message and one
open placeholder, and aborts a previously stored controller only then;
completing the turn seals that placeholder with the answer — from an
idle panel, one submit plus its resolution yields exactly one sealed
assistant message answering the question. -/
theorem chatSubmit_serialized (st : ChatState) (text : String) (now rid : Nat) :
    (st.isSubmitting = true →
      submitStartStep st text now rid
        = { state := st, started := false, abortedPrevious := false
            requestId := none, placeholderId := none }) ∧
    (jsTrim st.input = "" →
      handleSubmit st now rid
        = { state := st, started := false, abortedPrevious := false
            requestId := none, placeholderId := none }) ∧
    (st.isSubmitting = false →
      (submitStartStep st text now rid).state.isSubmitting = true ∧
      (submitStartStep st text now rid).abortedPrevious = st.chatAbortRef.isSome ∧
      (submitStartStep st text now rid).state.messages
        = st.messages ++ [userMessage (toString now) text,
            placeholderMessage (toString (now + 1))]) ∧
    ((submitFinishOk (handleSubmit idleChatState 100 2).state "101" "Answer to Q2" []).messages
        = [userMessage "100" "Q2",
           { id := "101", role := "assistant", content := "Answer to Q2"
             sources := some [], isComplete := some true }] ∧
      (handleSubmit idleChatState 100 2).abortedPrevious = true ∧
      (submitFinishOk (handleSubmit idleChatState 100 2).state "101" "Answer to Q2" []).isSubmitting
        = false) := by
  refine ⟨?_, ?_, ?_, by rfl, by rfl, by rfl⟩
  · intro h
    simp [submitStartStep, h]
  · intro h
    simp [handleSubmit, h]
  · intro h
    simp [submitStartStep, h]

/-- C7 witness: the in-flight guard at the concrete in-flight state, and
one idle-state start. -/
theorem chatSubmit_serialized_witness :
    submitStartStep chatStateQ1 "Q2" 200 2
      = { state := chatStateQ1, started := false, abortedPrevious := false
          requestId := none, placeholderId := none } ∧
    (submitStartStep idleChatState "Q2" 100 2).state.isSubmitting = true :=
  ⟨(chatSubmit_serialized chatStateQ1 "Q2" 200 2).1 rfl,
   ((chatSubmit_serialized idleChatState "Q2" 100 2).2.2.1 rfl).1⟩

/-- C8 counterexample: `askQuestion` against an expired session (HTTP
404) throws an error whose structured code is the generic `'api_error'`,
not `'session_not_found'`; and on that failure the chat controller picks
the message by sniffing the error text for `'422'`, so the 404 failure
renders the generic failure message, not the distinct expired-session
one. -/
theorem askQuestion_404_cex :
    (askQuestionError 404 none).code = "api_error" ∧
    (askQuestionError 404 none).code ≠ "session_not_found" ∧
    chatErrorContent (askQuestionError 404 none).message
      = "I apologize, but I encountered an error. Please try again." :=
  ⟨by rfl, by decide, by rfl⟩

/-- C8 (amended): every non-429 `askQuestion` failure — HTTP 404 on an
expired session included — carries the code `'api_error'` (429 alone is
`'rate_limited'`); the chat controller's catch branch does not consult a
structured code at all: it shows the expired-session text exactly when
the error message contains the substring `'422'`, and the generic
failure text otherwise. -/
theorem askQuestionError_spec (status : Nat) (detail : Option String) (emsg : String) :
    (status ≠ 429 → (askQuestionError status detail).code = "api_error") ∧
    (askQuestionError 429 detail).code = "rate_limited" ∧
    (chatErrorContent emsg
        = "Unable to process your request. The session may have expired. Please upload your document again to start a new analysis."
      ↔ jsIncludes emsg "422" = true) ∧
    (jsIncludes emsg "422" = false →
      chatErrorContent emsg
        = "I apologize, but I encountered an error. Please try again.") := by
  refine ⟨?_, rfl, ?_, ?_⟩
  · intro h
    simp [askQuestionError, h]
  · by_cases h : jsIncludes emsg "422" = true
    · simp [chatErrorContent, h]
    · simp only [Bool.not_eq_true] at h
      simp [chatErrorContent, h]
  · intro h
    simp [chatErrorContent, h]

/-- C8 witness: the implication at HTTP 404 and message sniffing on its
default message. -/
theorem askQuestionError_spec_witness :
    (askQuestionError 404 none).code = "api_error" ∧
    chatErrorContent "Chat request failed"
      = "I apologize, but I encountered an error. Please try again." :=
  ⟨(askQuestionError_spec 404 none "Chat request failed").1 (by decide),
   (askQuestionError_spec 404 none "Chat request failed").2.2.2 (by rfl)⟩

/-- Unfolding `findById` over a cons cell. -/
theorem findById_cons (t : Session) (m : List Session) (i : Option String) :
    findById (t :: m) i = if t.session_id = i then some t else findById m i := by
  unfold findById
  by_cases h : t.session_id = i
  · rw [List.find?_cons_of_pos _ (by simp [h]), if_pos h]
  · rw [List.find?_cons_of_neg _ (by simp [h]), if_neg h]

/-- `Map.set` looks up as: the written key now maps to the new value,
every other key is unchanged. -/
theorem findById_mapSet (m : List Session) (s : Session) (i : Option String) :
    findById (mapSet m s) i
      = if s.session_id = i then some s else findById m i := by
  induction m with
  | nil =>
    show findById [s] i = if s.session_id = i then some s else findById [] i
    rw [findById_cons]
  | cons t m ih =>
    by_cases ht : t.session_id = s.session_id
    · simp only [mapSet, if_pos ht, findById_cons]
      by_cases h : s.session_id = i
      · have ht' : t.session_id = i := ht.trans h
        simp [h, ht']
      · have ht' : ¬ t.session_id = i := fun hc => h (ht ▸ hc)
        simp [h, ht']
    · simp only [mapSet, if_neg ht, findById_cons, ih]
      by_cases hti : t.session_id = i
      · have hsi : ¬ s.session_id = i := fun hc => ht (hti.trans hc.symm)
        simp [hti, hsi]
      · simp [hti]

/-- `Map.set` on the key list: already-present keys keep the list, a
fresh key is appended. -/
theorem mapSet_ids (m : List Session) (s : Session) :
    (mapSet m s).map Session.session_id
      = if s.session_id ∈ m.map Session.session_id then m.map Session.session_id
        else m.map Session.session_id ++ [s.session_id] := by
  induction m with
  | nil => simp [mapSet]
  | cons t m ih =>
    by_cases ht : t.session_id = s.session_id
    · simp [mapSet, ht]
    · simp only [mapSet, if_neg ht, List.map_cons, ih]
      by_cases hmem : s.session_id ∈ m.map Session.session_id
      · simp [hmem, List.mem_cons]
      · have : ¬ (s.session_id = t.session_id ∨ s.session_id ∈ m.map Session.session_id) := by
          rintro (h | h)
          · exact ht h.symm
          · exact hmem h
        simp only [if_pos hmem, if_neg hmem, List.mem_cons, if_neg this]
        simp [hmem]

/-- `Map.set` length: unchanged for a present key, one more for a fresh
key. -/
theorem mapSet_length (m : List Session) (s : Session) :
    (mapSet m s).length
      = if s.session_id ∈ m.map Session.session_id then m.length else m.length + 1 := by
  have := congrArg List.length (mapSet_ids m s)
  simp only [List.length_map] at this
  rw [this]
  by_cases h : s.session_id ∈ m.map Session.session_id <;> simp [h]

/-- Setting a fresh key appends the entry. -/
theorem mapSet_of_not_mem (m : List Session) (s : Session)
    (h : s.session_id ∉ m.map Session.session_id) : mapSet m s = m ++ [s] := by
  induction m with
  | nil => rfl
  | cons t m ih =>
    simp only [List.map_cons, List.mem_cons] at h
    push_neg at h
    simp only [mapSet, if_neg (Ne.symm h.1), ih h.2, List.cons_append]

/-- Lookup through the whole `Map`-building fold. -/
theorem findById_foldl_mapSet (l : List Session) (i : Option String) :
    ∀ acc : List Session,
      findById (l.foldl mapSet acc) i
        = l.foldl (fun r t => if t.session_id = i then some t else r) (findById acc i) := by
  induction l with
  | nil => intro acc; rfl
  | cons s l ih =>
    intro acc
    simp only [List.foldl_cons]
    rw [ih (mapSet acc s), findById_mapSet]

/-- A cons's last element: the tail's when the tail has one, else the
head. -/
theorem getLast?_cons_or (a : α) (l : List α) :
    (a :: l).getLast?
      = match l.getLast? with
        | some y => some y
        | none => some a := by
  cases l with
  | nil => rfl
  | cons b l =>
    rw [List.getLast?_cons_cons]
    have : (b :: l).getLast?.isSome := by
      rw [List.getLast?_isSome]
      exact List.cons_ne_nil b l
    obtain ⟨y, hy⟩ := Option.isSome_iff_exists.mp this
    rw [hy]

/-- Picking the last matching element by a left fold equals the last
element of the filtered list (falling back to the seed). -/
theorem foldl_pick_last (i : Option String) (l : List Session) :
    ∀ r : Option Session,
      l.foldl (fun r t => if t.session_id = i then some t else r) r
        = match (l.filter fun t => t.session_id = i).getLast? with
          | some x => some x
          | none => r := by
  induction l with
  | nil => intro r; rfl
  | cons t l ih =>
    intro r
    simp only [List.foldl_cons]
    rw [ih]
    by_cases h : t.session_id = i
    · rw [List.filter_cons_of_pos (by simp [h]), if_pos h, getLast?_cons_or]
      cases (l.filter fun t => t.session_id = i).getLast? <;> rfl
    · rw [List.filter_cons_of_neg (by simp [h]), if_neg h]

/-- Last write wins: looking a key up in the deduplicated list yields
the last entry of the input carrying that key. -/
theorem findById_dedupeById (l : List Session) (i : Option String) :
    findById (dedupeById l) i = (l.filter fun t => t.session_id = i).getLast? := by
  unfold dedupeById
  rw [findById_foldl_mapSet]
  have hnil : findById [] i = none := rfl
  rw [hnil, foldl_pick_last]
  cases (l.filter fun t => t.session_id = i).getLast? <;> rfl

/-- The deduplicated key list only depends on the input key list, as the
first-occurrence fold over it. -/
theorem dedupe_ids_foldl (l : List Session) :
    ∀ acc : List Session,
      (l.foldl mapSet acc).map Session.session_id
        = (l.map Session.session_id).foldl
            (fun is i => if i ∈ is then is else is ++ [i])
            (acc.map Session.session_id) := by
  induction l with
  | nil => intro acc; rfl
  | cons s l ih =>
    intro acc
    simp only [List.foldl_cons, List.map_cons]
    rw [ih (mapSet acc s), mapSet_ids]

/-- C2's ordering clause: the surviving keys are the input keys in
first-occurrence (map-insertion) order. -/
theorem dedupeById_ids (l : List Session) :
    (dedupeById l).map Session.session_id = keepFirsts (l.map Session.session_id) := by
  unfold dedupeById keepFirsts
  convert dedupe_ids_foldl l [] using 2
  funext acc i
  congr

/-- The first-occurrence fold preserves distinctness of the
accumulator. -/
theorem keepFirsts_foldl_nodup {α : Type _} [DecidableEq α] (l : List α) :
    ∀ acc : List α, acc.Nodup →
      (l.foldl (fun is i => if i ∈ is then is else is ++ [i]) acc).Nodup := by
  induction l with
  | nil => intro acc h; exact h
  | cons a l ih =>
    intro acc h
    simp only [List.foldl_cons]
    by_cases hmem : a ∈ acc
    · rw [if_pos hmem]; exact ih acc h
    · rw [if_neg hmem]
      exact ih _ (by simp [List.nodup_append, h, hmem])

/-- The deduplicated list has pairwise-distinct keys. -/
theorem dedupeById_ids_nodup (l : List Session) :
    ((dedupeById l).map Session.session_id).Nodup := by
  rw [dedupeById_ids]
  exact keepFirsts_foldl_nodup _ [] List.nodup_nil

/-- Everything in a `Map.set` result was in the map or is the new
entry. -/
theorem mem_mapSet (m : List Session) (s t : Session) (h : t ∈ mapSet m s) :
    t ∈ m ∨ t = s := by
  induction m with
  | nil => simpa [mapSet] using h
  | cons u m ih =>
    by_cases hu : u.session_id = s.session_id
    · simp only [mapSet, if_pos hu, List.mem_cons] at h
      rcases h with h | h
      · exact Or.inr h
      · exact Or.inl (List.mem_cons_of_mem u h)
    · simp only [mapSet, if_neg hu, List.mem_cons] at h
      rcases h with h | h
      · exact Or.inl (h ▸ List.mem_cons_self u m)
      · rcases ih h with h' | h'
        · exact Or.inl (List.mem_cons_of_mem u h')
        · exact Or.inr h'

/-- Everything in the fold's result came from the accumulator or the
input. -/
theorem mem_foldl_mapSet (l : List Session) :
    ∀ (acc : List Session) (t : Session),
      t ∈ l.foldl mapSet acc → t ∈ acc ∨ t ∈ l := by
  induction l with
  | nil => intro acc t h; exact Or.inl h
  | cons s l ih =>
    intro acc t h
    simp only [List.foldl_cons] at h
    rcases ih (mapSet acc s) t h with h' | h'
    · rcases mem_mapSet acc s t h' with h'' | h''
      · exact Or.inl h''
      · exact Or.inr (h'' ▸ List.mem_cons_self s l)
    · exact Or.inr (List.mem_cons_of_mem s h')

/-- Every entry surviving the validity filter has a truthy id. -/
theorem validSessions_truthy (stored : List (Option Session)) (s : Session)
    (h : s ∈ validSessions stored) : truthyStr s.session_id := by
  unfold validSessions at h
  obtain ⟨entry, _, hf⟩ := List.mem_filterMap.mp h
  cases entry with
  | none => simp [Option.bind] at hf
  | some t =>
    simp only [Option.bind] at hf
    by_cases ht : truthyStr t.session_id
    · rw [if_pos ht] at hf
      cases hf
      exact ht
    · rw [if_neg ht] at hf
      cases hf

/-- The `Map`-building fold never grows beyond its inputs. -/
theorem foldl_mapSet_length_le (l : List Session) :
    ∀ acc : List Session, (l.foldl mapSet acc).length ≤ acc.length + l.length := by
  induction l with
  | nil => intro acc; simp
  | cons s l ih =>
    intro acc
    simp only [List.foldl_cons, List.length_cons]
    refine le_trans (ih (mapSet acc s)) ?_
    rw [mapSet_length]
    by_cases h : s.session_id ∈ acc.map Session.session_id
    · simp [h]
    · simp [h]
      omega

/-- When the fold keeps every entry (the lengths add up), it is plain
concatenation: nothing was deduplicated. -/
theorem foldl_mapSet_of_length_eq (l : List Session) :
    ∀ acc : List Session,
      (l.foldl mapSet acc).length = acc.length + l.length →
      l.foldl mapSet acc = acc ++ l := by
  induction l with
  | nil => intro acc _; simp
  | cons s l ih =>
    intro acc hlen
    simp only [List.foldl_cons, List.length_cons] at hlen ⊢
    have hle := foldl_mapSet_length_le l (mapSet acc s)
    have hset_le : (mapSet acc s).length ≤ acc.length + 1 := by
      rw [mapSet_length]
      by_cases h : s.session_id ∈ acc.map Session.session_id <;> simp [h]
    have hset : (mapSet acc s).length = acc.length + 1 := by omega
    have hfresh : s.session_id ∉ acc.map Session.session_id := by
      intro hmem
      rw [mapSet_length, if_pos hmem] at hset
      omega
    rw [mapSet_of_not_mem acc s hfresh] at hlen ⊢
    rw [ih (acc ++ [s]) (by simp at hlen ⊢; omega)]
    simp

/-- When the validity filter keeps every stored entry, the stored list
was exactly the valid sessions. -/
theorem validSessions_of_length_eq (stored : List (Option Session)) :
    (validSessions stored).length = stored.length →
    (validSessions stored).map some = stored := by
  induction stored with
  | nil => intro _; rfl
  | cons entry rest ih =>
    intro hlen
    have hle : (validSessions rest).length ≤ rest.length :=
      List.length_filterMap_le _ _
    cases entry with
    | none =>
      exfalso
      have : validSessions (none :: rest) = validSessions rest := rfl
      rw [this] at hlen
      simp only [List.length_cons] at hlen
      omega
    | some t =>
      by_cases ht : truthyStr t.session_id
      · have hcons : validSessions (some t :: rest) = t :: validSessions rest := by
          simp [validSessions, List.filterMap, Option.bind, if_pos ht]
        rw [hcons] at hlen ⊢
        simp only [List.length_cons, Nat.add_right_cancel_iff] at hlen
        rw [List.map_cons, ih hlen]
      · exfalso
        have hdrop : validSessions (some t :: rest) = validSessions rest := by
          simp [validSessions, List.filterMap, Option.bind, if_neg ht]
        rw [hdrop] at hlen
        simp only [List.length_cons] at hlen
        omega

/-- C2: hydration is defensive.  Every hydrated session has a truthy id
(entries with missing/null id are dropped); the hydrated ids are
pairwise distinct — a stored list with two entries under one id yields
exactly one session (the concrete last conjunct: the later write
survives); the ids appear in map-insertion order (first occurrence of
each id among the valid entries); the entry kept for an id is the last
valid entry written under it (last write wins); and storage is
re-written exactly when cleaning changed anything, i.e. when the cleaned
list no longer equals the stored one. -/
theorem load_defensive (stored : List (Option Session)) (i : Option String) :
    (∀ s ∈ loadCleaned stored, truthyStr s.session_id) ∧
    ((loadCleaned stored).map Session.session_id).Nodup ∧
    (loadCleaned stored).map Session.session_id
      = keepFirsts ((validSessions stored).map Session.session_id) ∧
    findById (loadCleaned stored) i
      = ((validSessions stored).filter fun t => t.session_id = i).getLast? ∧
    (repersistNeeded stored = true ↔ (loadCleaned stored).map some ≠ stored) ∧
    loadCleaned [some dupSessionA, some dupSessionB] = [dupSessionB] := by
  refine ⟨?_, dedupeById_ids_nodup _, dedupeById_ids _, findById_dedupeById _ i, ?_, by rfl⟩
  · intro s hs
    have hmem : s ∈ ([] : List Session) ∨ s ∈ validSessions stored :=
      mem_foldl_mapSet (validSessions stored) [] s hs
    rcases hmem with h | h
    · cases h
    · exact validSessions_truthy stored s h
  · constructor
    · intro h hmap
      have hlen : (loadCleaned stored).length ≠ stored.length := by
        simpa [repersistNeeded] using h
      apply hlen
      have := congrArg List.length hmap
      simpa using this
    · intro hne
      by_contra hfalse
      have hlen : (loadCleaned stored).length = stored.length := by
        by_contra hll
        exact hfalse (by simpa [repersistNeeded] using hll)
      have hle1 : (loadCleaned stored).length ≤ (validSessions stored).length := by
        have := foldl_mapSet_length_le (validSessions stored) []
        simpa [loadCleaned, dedupeById] using this
      have hle2 : (validSessions stored).length ≤ stored.length :=
        List.length_filterMap_le _ _
      have hval_len : (validSessions stored).length = stored.length := by omega
      have huniq_len : (loadCleaned stored).length
          = (0 : Nat) + (validSessions stored).length := by omega
      have huniq : loadCleaned stored = validSessions stored := by
        have := foldl_mapSet_of_length_eq (validSessions stored) [] (by simpa using huniq_len)
        simpa [loadCleaned, dedupeById] using this
      exact hne (by rw [huniq, validSessions_of_length_eq stored hval_len])

/-- C2 witness: on the duplicated concrete store, the lookup clause of
the theorem resolves `'dup'` to the later write. -/
theorem load_defensive_witness :
    findById (loadCleaned [some dupSessionA, some dupSessionB]) (some "dup")
      = some dupSessionB := by
  have h := (load_defensive [some dupSessionA, some dupSessionB] (some "dup")).2.2.2.1
  rw [h]
  rfl
